import Mathlib

/-!
Verification of `src/extras/multi_axis_probe.py` (multi-axis bouncing probe).

Shallow embedding conventions:
* Python floats are modelled as rationals (`ℚ`); machine positions are triples
  of coordinates (the toolhead's 4th, extruder, coordinate plays no role in the
  probing logic and is dropped, exactly as `_probe` drops it with `epos[:3]`).
* External collaborators (toolhead, MCU endstops, gcode) are modelled as
  oracles: the result of the n-th low-level probing move is an arbitrary
  function `Nat → Pos`, and the motion / capability calls the module makes are
  recorded in explicit traces.
* Python exceptions become `Except`/error values; an operation that raises
  returns the session state exactly as it was at the moment of the raise.
-/

namespace MultiAxisProbe

/-- A machine-space position (X, Y, Z), the first three entries of the Python
position lists handled by the module. -/
structure Pos where
  x : ℚ
  y : ℚ
  z : ℚ
deriving DecidableEq, Repr, Inhabited

/-- Python `p[axis]` for `axis ∈ {0,1,2}` (the only indices produced by
`direction_types`). -/
def Pos.get (p : Pos) (axis : Nat) : ℚ :=
  match axis with
  | 0 => p.x
  | 1 => p.y
  | 2 => p.z
  | _ => 0

/-- Python `p[axis] = v`: the observable value of a position list after the
module overwrites one coordinate. -/
def Pos.set (p : Pos) (axis : Nat) (v : ℚ) : Pos :=
  match axis with
  | 0 => { p with x := v }
  | 1 => { p with y := v }
  | 2 => { p with z := v }
  | _ => p

/-- The `direction_types` dict (line 9): six symbolic directions mapped to
(axis index, sign); any other key is a Python `KeyError` (`none`). -/
def direction_types (d : String) : Option (Nat × Int) :=
  match d with
  | "x+" => some (0, 1)
  | "x-" => some (0, -1)
  | "y+" => some (1, 1)
  | "y-" => some (1, -1)
  | "z+" => some (2, 1)
  | "z-" => some (2, -1)
  | _ => none

/-- The `HINT_TIMEOUT` string (lines 11-15). -/
def HINT_TIMEOUT : String :=
  "\nIf the probe did not move far enough to trigger, then\nconsider reducing the Z axis minimum position so the probe\ncan travel further (the Z minimum position can be negative).\n"

/-- Python `max(list)` over a non-empty list (junk value 0 on `[]`, where the
source would raise). -/
def list_max : List ℚ → ℚ
  | [] => 0
  | a :: l => l.foldl max a

/-- Python `min(list)` over a non-empty list (junk value 0 on `[]`). -/
def list_min : List ℚ → ℚ
  | [] => 0
  | a :: l => l.foldl min a

/-- Spread `max(axis_positions) - min(axis_positions)` for the coordinates of `axis`
(run_probe lines 232-233). -/
def axis_spread (axis : Nat) (ps : List Pos) : ℚ :=
  let axis_positions := ps.map fun p => p.get axis
  list_max axis_positions - list_min axis_positions

/-- Embeds `ProbeSessionHelper._calc_mean` (lines 314-317): per-coordinate arithmetic
mean. -/
def calc_mean (positions : List Pos) : Pos :=
  let count : ℚ := positions.length
  { x := (positions.map Pos.x).sum / count
    y := (positions.map Pos.y).sum / count
    z := (positions.map Pos.z).sum / count }

/-- Python's stable `sorted(positions, key=lambda p: p[axis])`: insertion
sort on the axis coordinate, each element inserted before the first element
whose key is not smaller, hence after every earlier tie and before every
later one. -/
def sortByAxis (axis : Nat) (positions : List Pos) : List Pos :=
  List.insertionSort (fun p q => p.get axis ≤ q.get axis) positions

/-- Embeds `ProbeSessionHelper._calc_median` (lines 319-326): sort by the given axis,
odd count returns the middle element verbatim, even count returns the mean of
`axis_sorted[middle-1:middle+1]`. -/
def calc_median (positions : List Pos) (axis : Nat) : Pos :=
  let axis_sorted := sortByAxis axis positions
  let middle := positions.length / 2
  if positions.length % 2 = 1 then axis_sorted.getD middle default
  else calc_mean ((axis_sorted.drop (middle - 1)).take 2)

/-- Embeds `ProbeSessionHelper._calculate_results` (lines 309-312). -/
def calculate_results (positions : List Pos) (samples_result : String) (axis : Nat) : Pos :=
  if samples_result = "median" then calc_median positions axis
  else calc_mean positions

/-- Module-level `calc_probe_average` (lines 18-31).  Note the median branch
sorts by `p[2]` — the third coordinate — no matter which axis is being
probed. -/
def calc_probe_average (positions : List Pos) (method : String) : Pos :=
  if method ≠ "median" then calc_mean positions
  else
    let z_sorted := sortByAxis 2 positions
    let middle := positions.length / 2
    if positions.length % 2 = 1 then z_sorted.getD middle default
    else calc_mean ((z_sorted.drop (middle - 1)).take 2)

/-- The statistics block of `ProbeCommandHelper.cmd_PROBE_ACCURACY`
(lines 120-130).  `variance` is the square of the reported `sigma`
(`sigma = (deviation_sum / len) ** 0.5`); the deviation loop reads
`positions[i][2]`, the hardcoded third coordinate. -/
structure AccuracyStats where
  max_value : ℚ
  min_value : ℚ
  range_value : ℚ
  avg_value : ℚ
  median : ℚ
  variance : ℚ
deriving DecidableEq, Repr

def accuracy_stats (positions : List Pos) (axis : Nat) : AccuracyStats :=
  let max_value := list_max (positions.map fun p => p.get axis)
  let min_value := list_min (positions.map fun p => p.get axis)
  let range_value := max_value - min_value
  let avg_value := (calc_probe_average positions "average").get axis
  let median := (calc_probe_average positions "median").get axis
  let deviation_sum := (positions.map fun p => (p.get 2 - avg_value) ^ 2).sum
  { max_value := max_value, min_value := min_value, range_value := range_value
    avg_value := avg_value, median := median
    variance := deviation_sum / positions.length }

/-! ## Probing session state machine -/

/-- The mutable fields of `ProbeSessionHelper` touched by the session state
machine (lines 158-160). -/
structure Session where
  multi_probe_pending : Bool
  results : List Pos
deriving DecidableEq, Repr

/-- Calls made on the per-axis contact-detection capability
(`mcu_probes[axis].multi_probe_begin/_end`). -/
inductive Cap
  | beginUse (axis : Nat)
  | endUse (axis : Nat)
deriving DecidableEq, Repr

/-- The structured errors this module raises. -/
inductive PError
  | stateError        -- "Internal probe error - start/end probe session mismatch"
  | keyError          -- Python KeyError on direction_types[direction]
  | wrongDirection    -- "Wrong value for DIRECTION."
  | toleranceExceeded -- "Probe samples exceed samples_tolerance"
  | mcuEndError       -- an error raised inside mcu_probes[axis].multi_probe_end()
deriving DecidableEq, Repr

/-- Embeds `ProbeSessionHelper.start_probe_session` (lines 173-180).  The returned
pair is (what the call produced or raised, the session state at return /
at the point of the raise); the `Cap` list records the capability call. -/
def start_probe_session (direction : String) (s : Session) :
    Except PError (List Cap) × Session :=
  if s.multi_probe_pending then (.error .stateError, s)
  else
    match direction_types direction with
    | none => (.error .keyError, s)
    | some (axis, _sense) =>
        (.ok [Cap.beginUse axis], { multi_probe_pending := true, results := [] })

/-- Embeds `ProbeSessionHelper.end_probe_session` (lines 181-187).  `mcuEndFails`
models `mcu_probes[axis].multi_probe_end()` raising; the assignments to
`results` and `multi_probe_pending` precede that call in the source, so they
survive such a raise. -/
def end_probe_session (mcuEndFails : Bool) (direction : String) (s : Session) :
    Except PError (List Cap) × Session :=
  if !s.multi_probe_pending then (.error .stateError, s)
  else
    match direction_types direction with
    | none => (.error .keyError, s)
    | some (axis, _sense) =>
        let s' : Session := { multi_probe_pending := false, results := [] }
        if mcuEndFails then (.error .mcuEndError, s')
        else (.ok [Cap.endUse axis], s')

/-- Embeds `ProbeSessionHelper._handle_command_error` (lines 164-169): if a session
is pending, force-end it with the *default* direction and swallow any error
(`except: logging.exception(...)`). -/
def handle_command_error (mcuEndFails : Bool) (s : Session) : Session × List Cap :=
  if s.multi_probe_pending then
    match end_probe_session mcuEndFails "z-" s with
    | (.ok caps, s') => (s', caps)
    | (.error _, s') => (s', [])
  else (s, [])

/-- Embeds `ProbeSessionHelper.pull_probed_results` (lines 328-331). -/
def pull_probed_results (s : Session) : List Pos × Session :=
  (s.results, { s with results := [] })

/-! ## run_probe: the tolerance-retry sampling loop -/

/-- The probe parameters `get_probe_params` assembles (lines 188-209), as far
as the sampling logic consumes them. -/
structure ProbeParams where
  probe_speed : ℚ
  lift_speed : ℚ
  max_distance : ℚ
  samples : Nat
  sample_retract_dist : ℚ
  samples_tolerance : ℚ
  samples_tolerance_retries : Nat
  samples_result : String
deriving DecidableEq, Repr

/-- The `while len(positions) < sample_count` loop of
`ProbeSessionHelper.run_probe` (lines 227-243).  `samples n` is the position
returned by the n-th `_bouncing_probe` call; the retract motion between
samples touches neither `positions` nor `retries` nor the session and is not
replayed here.  Besides the loop's outcome the function returns the
instrumentation trace of every successive value taken by the local variable
`positions`: the buffer after each append and after each tolerance reset. -/
def run_probe_loop (axis : Nat) (tol : ℚ) (maxRetries sampleCount : Nat)
    (samples : Nat → Pos) (retries : Nat) (positions : List Pos) (n : Nat) :
    Except PError (List Pos) × List (List Pos) :=
  if hlen : positions.length < sampleCount then
    let pos := samples n
    let ps := positions ++ [pos]
    if hv : tol < axis_spread axis ps then
      if hr : maxRetries ≤ retries then (.error .toleranceExceeded, [ps])
      else
        let r := run_probe_loop axis tol maxRetries sampleCount samples (retries + 1) [] (n + 1)
        (r.1, ps :: [] :: r.2)
    else
      let r := run_probe_loop axis tol maxRetries sampleCount samples retries ps (n + 1)
      (r.1, ps :: r.2)
  else (.ok positions, [])
termination_by (maxRetries + 1 - retries, sampleCount - positions.length)
decreasing_by
  · apply Prod.Lex.left
    omega
  · apply Prod.Lex.right
    simp
    omega

/-- Embeds `ProbeSessionHelper.run_probe` (lines 211-247): state check, direction
check, sampling loop, then append of the aggregated result.  The session state
is returned as of the return / raise point; on any raise inside the loop the
`self.results.append` on line 247 has not yet run. -/
def run_probe (params : ProbeParams) (direction : String) (samples : Nat → Pos)
    (s : Session) : Except PError Unit × Session :=
  if !s.multi_probe_pending then (.error .stateError, s)
  else
    match direction_types direction with
    | none => (.error .wrongDirection, s)
    | some (axis, _sense) =>
        match (run_probe_loop axis params.samples_tolerance
                params.samples_tolerance_retries params.samples samples 0 [] 0).1 with
        | .error e => (.error e, s)
        | .ok positions =>
            (.ok (),
             { s with results :=
                 s.results ++ [calculate_results positions params.samples_result axis] })

/-! ## Bounce refinement -/

/-- The externally observable actions of `_bouncing_probe`: a contact-detect
move (`self._probe(speed, direction)` with the oracle's result), a toolhead
retract (`toolhead.manual_move(liftpos, bouncing_lift_speed)`), and the
`probe:update_results` event. -/
inductive BAct
  | probeMove (speed : ℚ) (result : Pos)
  | moveTo (target : Pos) (speed : ℚ)
  | updateEvent (pos : Pos)
deriving DecidableEq, Repr

/-- The `while bounces < bounce_count` loop of `_bouncing_probe`
(lines 258-265), unrolled over the remaining bounce count.  Per iteration the
source probes at `bouncing_speed`, decays `bouncing_speed` by `* 0.1`, then
retracts by `bouncing_speed * 3.0` (the already-decayed speed) at the
loop-invariant `bouncing_lift_speed`.  `contacts i` is the contact position
returned by the i-th `_probe` call; `last` is the running value of the Python
variable `pos`. -/
def bounce_loop (contacts : Nat → Pos) (probe_start : Pos) (axis : Nat) (sense : Int)
    (bouncing_lift_speed : ℚ) : Nat → ℚ → Pos → Nat → Pos × List BAct
  | 0, _spd, last, _i => (last, [])
  | m + 1, spd, _last, i =>
      let pos := contacts i
      let spd' := spd * (1 / 10)
      let bouncing_retract_dist := spd' * 3
      let liftpos := probe_start.set axis (pos.get axis - (sense : ℚ) * bouncing_retract_dist)
      let next := bounce_loop contacts probe_start axis sense bouncing_lift_speed m spd' pos (i + 1)
      (next.1, BAct.probeMove spd pos :: BAct.moveTo liftpos bouncing_lift_speed :: next.2)

/-- Embeds `ProbeSessionHelper._bouncing_probe` (lines 249-269): `bounce_count = 3`
(a constant; the configured sample count plays no part), initial
`bouncing_speed = speed`, `bouncing_lift_speed = speed * 2.0` computed once
before the loop.  Returns the final contact position and the action trace,
the trailing action being the `probe:update_results` event.  An unknown
direction is a Python `KeyError` (`none`). -/
def bouncing_probe (contacts : Nat → Pos) (probe_start : Pos) (speed : ℚ)
    (direction : String) : Option (Pos × List BAct) :=
  match direction_types direction with
  | none => none
  | some (axis, sense) =>
      let bouncing_lift_speed := speed * 2
      let r := bounce_loop contacts probe_start axis sense bouncing_lift_speed 3 speed probe_start 0
      some (r.1, r.2 ++ [BAct.updateEvent r.1])

/-- The contact-detect moves of a bounce trace, in order. -/
def probe_moves (tr : List BAct) : List (ℚ × Pos) :=
  tr.filterMap fun a =>
    match a with
    | .probeMove s p => some (s, p)
    | _ => none

/-- The retract moves of a bounce trace, in order. -/
def retract_moves (tr : List BAct) : List (Pos × ℚ) :=
  tr.filterMap fun a =>
    match a with
    | .moveTo t s => some (t, s)
    | _ => none

/-- The positions carried by `probe:update_results` events of a trace. -/
def event_positions (tr : List BAct) : List Pos :=
  tr.filterMap fun a =>
    match a with
    | .updateEvent p => some p
    | _ => none

/-! ## The `_probe` timeout hint -/

/-- Is `pat` a (character-wise) head of `l`? -/
def list_starts : List Char → List Char → Bool
  | [], _ => true
  | _ :: _, [] => false
  | c :: p, d :: s => c = d && list_starts p s

/-- Does `l` contain `pat` as a contiguous run? -/
def list_has_run (pat : List Char) : List Char → Bool
  | [] => pat.isEmpty
  | c :: s => list_starts pat (c :: s) || list_has_run pat s

/-- Python's `pat in s` on strings: substring containment. -/
def str_in (pat s : String) : Bool :=
  list_has_run pat.toList s.toList

/-- The `except` block of `ProbeSessionHelper._probe` (lines 275-281): the
re-raised error message.  The hint is appended whenever the reason mentions
the endstop timeout; the probed direction (in scope in `_probe`) is not
consulted. -/
def probe_handle_error (direction : String) (reason : String) : String :=
  let _ := direction
  if str_in "Timeout during endstop homing" reason then reason ++ HINT_TIMEOUT
  else reason

/-! ## Step equations for the sampling loop -/

theorem run_probe_loop_exit {axis : Nat} {tol : ℚ} {maxRetries sampleCount : Nat}
    {samples : Nat → Pos} {retries : Nat} {positions : List Pos} {n : Nat}
    (h : ¬ positions.length < sampleCount) :
    run_probe_loop axis tol maxRetries sampleCount samples retries positions n =
      (.ok positions, []) := by
  rw [run_probe_loop]
  simp [h]

theorem run_probe_loop_fatal {axis : Nat} {tol : ℚ} {maxRetries sampleCount : Nat}
    {samples : Nat → Pos} {retries : Nat} {positions : List Pos} {n : Nat}
    (hlen : positions.length < sampleCount)
    (hv : tol < axis_spread axis (positions ++ [samples n]))
    (hr : maxRetries ≤ retries) :
    run_probe_loop axis tol maxRetries sampleCount samples retries positions n =
      (.error .toleranceExceeded, [positions ++ [samples n]]) := by
  rw [run_probe_loop]
  simp [hlen, hv, hr]

theorem run_probe_loop_retry {axis : Nat} {tol : ℚ} {maxRetries sampleCount : Nat}
    {samples : Nat → Pos} {retries : Nat} {positions : List Pos} {n : Nat}
    (hlen : positions.length < sampleCount)
    (hv : tol < axis_spread axis (positions ++ [samples n]))
    (hr : ¬ maxRetries ≤ retries) :
    run_probe_loop axis tol maxRetries sampleCount samples retries positions n =
      ((run_probe_loop axis tol maxRetries sampleCount samples (retries + 1) [] (n + 1)).1,
       (positions ++ [samples n]) :: [] ::
         (run_probe_loop axis tol maxRetries sampleCount samples (retries + 1) [] (n + 1)).2) := by
  rw [run_probe_loop]
  simp [hlen, hv, hr]

theorem run_probe_loop_cont {axis : Nat} {tol : ℚ} {maxRetries sampleCount : Nat}
    {samples : Nat → Pos} {retries : Nat} {positions : List Pos} {n : Nat}
    (hlen : positions.length < sampleCount)
    (hv : ¬ tol < axis_spread axis (positions ++ [samples n])) :
    run_probe_loop axis tol maxRetries sampleCount samples retries positions n =
      ((run_probe_loop axis tol maxRetries sampleCount samples retries
          (positions ++ [samples n]) (n + 1)).1,
       (positions ++ [samples n]) ::
         (run_probe_loop axis tol maxRetries sampleCount samples retries
           (positions ++ [samples n]) (n + 1)).2) := by
  rw [run_probe_loop]
  simp [hlen, hv]

/-! ## Invariants of the sampling loop -/

theorem run_probe_loop_trace_len (axis : Nat) (tol : ℚ) (maxRetries sampleCount : Nat)
    (samples : Nat → Pos) (retries : Nat) (positions : List Pos) (n : Nat) :
    ∀ buf ∈ (run_probe_loop axis tol maxRetries sampleCount samples retries positions n).2,
      buf.length ≤ sampleCount := by
  induction retries, positions, n using run_probe_loop.induct axis tol maxRetries sampleCount samples with
  | case1 retries positions n hlen pos ps hv hr =>
      rw [run_probe_loop_fatal hlen hv hr]
      intro buf hb
      simp only [List.mem_singleton] at hb
      subst hb
      simp only [List.length_append, List.length_singleton]
      omega
  | case2 retries positions n hlen pos ps hv hr ih =>
      rw [run_probe_loop_retry hlen hv hr]
      intro buf hb
      simp only [List.mem_cons] at hb
      rcases hb with hb | hb | hb
      · subst hb
        simp only [List.length_append, List.length_singleton]
        omega
      · subst hb
        simp only [List.length_nil]
        omega
      · exact ih buf hb
  | case3 retries positions n hlen pos ps hv ih =>
      rw [run_probe_loop_cont hlen hv]
      intro buf hb
      simp only [List.mem_cons] at hb
      rcases hb with hb | hb
      · subst hb
        simp only [List.length_append, List.length_singleton]
        omega
      · exact ih buf hb
  | case4 retries positions n hlen =>
      rw [run_probe_loop_exit hlen]
      intro buf hb
      simp at hb

theorem axis_spread_nil (axis : Nat) : axis_spread axis [] = 0 := by
  simp [axis_spread, list_max, list_min]

theorem run_probe_loop_trace_chain (axis : Nat) (tol : ℚ) (maxRetries sampleCount : Nat)
    (samples : Nat → Pos) (retries : Nat) (positions : List Pos) (n : Nat)
    (htol : 0 ≤ tol) :
    List.Chain' (fun a b => tol < axis_spread axis a → b = [])
      (run_probe_loop axis tol maxRetries sampleCount samples retries positions n).2 := by
  induction retries, positions, n using run_probe_loop.induct axis tol maxRetries sampleCount samples with
  | case1 retries positions n hlen pos ps hv hr =>
      rw [run_probe_loop_fatal hlen hv hr]
      simp
  | case2 retries positions n hlen pos ps hv hr ih =>
      rw [run_probe_loop_retry hlen hv hr]
      rw [List.chain'_cons', List.chain'_cons']
      refine ⟨fun y hy _ => ?_, fun y hy hsp => ?_, ih⟩
      · simp only [List.head?_cons, Option.mem_some_iff] at hy
        exact hy.symm
      · rw [axis_spread_nil] at hsp
        exact absurd hsp (by linarith)
  | case3 retries positions n hlen pos ps hv ih =>
      rw [run_probe_loop_cont hlen hv]
      rw [List.chain'_cons']
      exact ⟨fun y _ hsp => absurd hsp hv, ih⟩
  | case4 retries positions n hlen =>
      rw [run_probe_loop_exit hlen]
      simp

theorem run_probe_loop_error_eq (axis : Nat) (tol : ℚ) (maxRetries sampleCount : Nat)
    (samples : Nat → Pos) (retries : Nat) (positions : List Pos) (n : Nat) (e : PError) :
    (run_probe_loop axis tol maxRetries sampleCount samples retries positions n).1 =
      .error e →
    e = .toleranceExceeded := by
  induction retries, positions, n using run_probe_loop.induct axis tol maxRetries sampleCount samples with
  | case1 retries positions n hlen pos ps hv hr =>
      intro he
      rw [run_probe_loop_fatal hlen hv hr] at he
      simp at he
      exact he.symm
  | case2 retries positions n hlen pos ps hv hr ih =>
      intro he
      rw [run_probe_loop_retry hlen hv hr] at he
      exact ih he
  | case3 retries positions n hlen pos ps hv ih =>
      intro he
      rw [run_probe_loop_cont hlen hv] at he
      exact ih he
  | case4 retries positions n hlen =>
      intro he
      rw [run_probe_loop_exit hlen] at he
      simp at he

theorem run_probe_loop_no_retry (axis : Nat) (tol : ℚ) (sampleCount : Nat)
    (samples : Nat → Pos) (retries : Nat) (positions : List Pos) (n : Nat)
    (res : List Pos) :
    (run_probe_loop axis tol 0 sampleCount samples retries positions n).1 = .ok res →
    ∀ buf ∈ (run_probe_loop axis tol 0 sampleCount samples retries positions n).2,
      axis_spread axis buf ≤ tol := by
  induction retries, positions, n using run_probe_loop.induct axis tol 0 sampleCount samples with
  | case1 retries positions n hlen pos ps hv hr =>
      intro hok
      rw [run_probe_loop_fatal hlen hv hr] at hok
      simp at hok
  | case2 retries positions n hlen pos ps hv hr ih =>
      omega
  | case3 retries positions n hlen pos ps hv ih =>
      intro hok
      rw [run_probe_loop_cont hlen hv] at hok ⊢
      intro buf hb
      simp only [List.mem_cons] at hb
      rcases hb with hb | hb
      · subst hb
        exact le_of_not_lt hv
      · exact ih hok buf hb
  | case4 retries positions n hlen =>
      intro hok
      rw [run_probe_loop_exit hlen]
      intro buf hb
      simp at hb

/-! ## Claim theorems -/

/-- C1: calling `start_probe_session` while the session is already active
raises the session-state error, and calling `run_probe` or
`end_probe_session` while the session is not active raises the session-state
error; in each such error case the session's `multi_probe_pending` flag and
`results` buffer are unchanged (the returned state is exactly the input
state). -/
theorem session_state_guard (s : Session) (direction : String) (params : ProbeParams)
    (samples : Nat → Pos) (mcuEndFails : Bool) :
    (s.multi_probe_pending = true →
      start_probe_session direction s = (.error .stateError, s)) ∧
    (s.multi_probe_pending = false →
      run_probe params direction samples s = (.error .stateError, s)) ∧
    (s.multi_probe_pending = false →
      end_probe_session mcuEndFails direction s = (.error .stateError, s)) := by
  refine ⟨fun h => ?_, fun h => ?_, fun h => ?_⟩
  · simp [start_probe_session, h]
  · simp [run_probe, h]
  · simp [end_probe_session, h]

theorem session_state_guard_witness :
    start_probe_session "z-" { multi_probe_pending := true, results := [] } =
      (.error .stateError, { multi_probe_pending := true, results := [] }) ∧
    run_probe (ProbeParams.mk 5 5 10 3 2 (1/10) 0 "average") "z-" (fun _ => Pos.mk 0 0 0)
        { multi_probe_pending := false, results := [] } =
      (.error .stateError, { multi_probe_pending := false, results := [] }) ∧
    end_probe_session false "z-" { multi_probe_pending := false, results := [] } =
      (.error .stateError, { multi_probe_pending := false, results := [] }) :=
  ⟨(session_state_guard { multi_probe_pending := true, results := [] } "z-"
      (ProbeParams.mk 5 5 10 3 2 (1/10) 0 "average") (fun _ => Pos.mk 0 0 0) false).1 rfl,
   (session_state_guard { multi_probe_pending := false, results := [] } "z-"
      (ProbeParams.mk 5 5 10 3 2 (1/10) 0 "average") (fun _ => Pos.mk 0 0 0) false).2.1 rfl,
   (session_state_guard { multi_probe_pending := false, results := [] } "z-"
      (ProbeParams.mk 5 5 10 3 2 (1/10) 0 "average") (fun _ => Pos.mk 0 0 0) false).2.2 rfl⟩

/-- C4: in the tolerance-retry sampling loop of `run_probe` — started, as
`run_probe` starts it, with `retries = 0` and an empty buffer — every value
the raw-sample buffer takes has at most `sampleCount` elements, and whenever
the spread of the probing-axis coordinates of a buffered batch exceeds the
tolerance, the very next value of the buffer is the empty list (all samples
discarded) if sampling resumes at all. -/
theorem run_probe_buffer_invariant (axis : Nat) (tol : ℚ) (maxRetries sampleCount : Nat)
    (samples : Nat → Pos) (htol : 0 ≤ tol) :
    (∀ buf ∈ (run_probe_loop axis tol maxRetries sampleCount samples 0 [] 0).2,
      buf.length ≤ sampleCount) ∧
    List.Chain' (fun a b => tol < axis_spread axis a → b = [])
      (run_probe_loop axis tol maxRetries sampleCount samples 0 [] 0).2 :=
  ⟨run_probe_loop_trace_len axis tol maxRetries sampleCount samples 0 [] 0,
   run_probe_loop_trace_chain axis tol maxRetries sampleCount samples 0 [] 0 htol⟩

theorem run_probe_buffer_invariant_witness :
    (0 : ℚ) ≤ 1/10 ∧
    ((∀ buf ∈ (run_probe_loop 2 (1/10) 1 3
        (fun n => if n = 0 then Pos.mk 0 0 1 else if n = 1 then Pos.mk 0 0 (21/20)
                  else if n = 2 then Pos.mk 0 0 (5/4) else Pos.mk 0 0 1) 0 [] 0).2,
      buf.length ≤ 3) ∧
    List.Chain' (fun a b => (1/10 : ℚ) < axis_spread 2 a → b = [])
      (run_probe_loop 2 (1/10) 1 3
        (fun n => if n = 0 then Pos.mk 0 0 1 else if n = 1 then Pos.mk 0 0 (21/20)
                  else if n = 2 then Pos.mk 0 0 (5/4) else Pos.mk 0 0 1) 0 [] 0).2) :=
  ⟨by norm_num,
   run_probe_buffer_invariant 2 (1/10) 1 3
     (fun n => if n = 0 then Pos.mk 0 0 1 else if n = 1 then Pos.mk 0 0 (21/20)
               else if n = 2 then Pos.mk 0 0 (5/4) else Pos.mk 0 0 1) (by norm_num)⟩

/-- C5: while a session is active, if the sampling loop of `run_probe` raises
(a tolerance violation with the retry budget exhausted), then the error is the
tolerance-exceeded error and `run_probe` returns with the session exactly as
it was on entry — in particular no aggregated position is appended to
`results`; and with a retry budget of 0, a successful loop never saw any
batch whose axis spread exceeded the tolerance (the first violation is
fatal). -/
theorem run_probe_tolerance_fatal (params : ProbeParams) (direction : String)
    (axis : Nat) (sense : Int) (samples : Nat → Pos) (s : Session)
    (hpend : s.multi_probe_pending = true)
    (hdir : direction_types direction = some (axis, sense)) :
    (∀ e, (run_probe_loop axis params.samples_tolerance params.samples_tolerance_retries
        params.samples samples 0 [] 0).1 = .error e →
      e = .toleranceExceeded ∧
      run_probe params direction samples s = (.error .toleranceExceeded, s)) ∧
    (params.samples_tolerance_retries = 0 →
      ∀ res, (run_probe_loop axis params.samples_tolerance 0
          params.samples samples 0 [] 0).1 = .ok res →
        ∀ buf ∈ (run_probe_loop axis params.samples_tolerance 0
            params.samples samples 0 [] 0).2,
          axis_spread axis buf ≤ params.samples_tolerance) := by
  constructor
  · intro e he
    have hte : e = PError.toleranceExceeded :=
      run_probe_loop_error_eq axis params.samples_tolerance params.samples_tolerance_retries
        params.samples samples 0 [] 0 e he
    subst hte
    refine ⟨rfl, ?_⟩
    simp only [run_probe, hpend, Bool.not_true, Bool.false_eq_true, if_false, hdir]
    rw [he]
  · intro _hzero res
    exact run_probe_loop_no_retry axis params.samples_tolerance params.samples samples 0 [] 0 res

theorem run_probe_tolerance_fatal_witness :
    (Session.mk true [] : Session).multi_probe_pending = true ∧
    direction_types "z-" = some (2, -1) ∧
    ((∀ e, (run_probe_loop 2 (ProbeParams.mk 5 5 10 3 2 (1/10) 0 "average").samples_tolerance
        (ProbeParams.mk 5 5 10 3 2 (1/10) 0 "average").samples_tolerance_retries
        (ProbeParams.mk 5 5 10 3 2 (1/10) 0 "average").samples
        (fun n => if n = 0 then Pos.mk 0 0 1 else if n = 1 then Pos.mk 0 0 (21/20)
                  else Pos.mk 0 0 (5/4)) 0 [] 0).1 = .error e →
      e = .toleranceExceeded ∧
      run_probe (ProbeParams.mk 5 5 10 3 2 (1/10) 0 "average") "z-"
          (fun n => if n = 0 then Pos.mk 0 0 1 else if n = 1 then Pos.mk 0 0 (21/20)
                    else Pos.mk 0 0 (5/4)) (Session.mk true []) =
        (.error .toleranceExceeded, Session.mk true [])) ∧
    ((ProbeParams.mk 5 5 10 3 2 (1/10) 0 "average").samples_tolerance_retries = 0 →
      ∀ res, (run_probe_loop 2 (ProbeParams.mk 5 5 10 3 2 (1/10) 0 "average").samples_tolerance 0
          (ProbeParams.mk 5 5 10 3 2 (1/10) 0 "average").samples
          (fun n => if n = 0 then Pos.mk 0 0 1 else if n = 1 then Pos.mk 0 0 (21/20)
                    else Pos.mk 0 0 (5/4)) 0 [] 0).1 = .ok res →
        ∀ buf ∈ (run_probe_loop 2 (ProbeParams.mk 5 5 10 3 2 (1/10) 0 "average").samples_tolerance 0
            (ProbeParams.mk 5 5 10 3 2 (1/10) 0 "average").samples
            (fun n => if n = 0 then Pos.mk 0 0 1 else if n = 1 then Pos.mk 0 0 (21/20)
                      else Pos.mk 0 0 (5/4)) 0 [] 0).2,
          axis_spread 2 buf ≤ (ProbeParams.mk 5 5 10 3 2 (1/10) 0 "average").samples_tolerance)) :=
  ⟨rfl, by decide,
   run_probe_tolerance_fatal (ProbeParams.mk 5 5 10 3 2 (1/10) 0 "average") "z-" 2 (-1)
     (fun n => if n = 0 then Pos.mk 0 0 1 else if n = 1 then Pos.mk 0 0 (21/20)
               else Pos.mk 0 0 (5/4)) (Session.mk true []) rfl (by decide)⟩

/-- C8: `pull_probed_results`, in either session state, returns exactly the
buffered aggregated positions in append order, leaves the buffer empty (an
immediately following pull returns `[]`), and does not change the session's
pending state. -/
theorem pull_results_consume_once (s : Session) :
    (pull_probed_results s).1 = s.results ∧
    (pull_probed_results s).2.results = [] ∧
    (pull_probed_results (pull_probed_results s).2).1 = [] ∧
    (pull_probed_results s).2.multi_probe_pending = s.multi_probe_pending :=
  ⟨rfl, rfl, rfl, rfl⟩

/-- C10 (code evaluated at the failing input): a session begun with direction
`"x+"` acquires the exclusive hold on axis 0's contact-detection capability,
but the forced cleanup after an external command error calls
`end_probe_session` with its *default* direction `"z-"`, so it releases
axis 2's capability and never releases axis 0's — contradicting the claim
that every exit from the active state releases the hold resolved from the
begin direction.  The suppression half of the claim does hold: when the
forced end's capability call itself raises, `_handle_command_error` swallows
the error and still returns (pending cleared). -/
theorem forced_cleanup_releases_default_axis :
    start_probe_session "x+" (Session.mk false []) =
      (.ok [Cap.beginUse 0], Session.mk true []) ∧
    handle_command_error false (Session.mk true []) =
      (Session.mk false [], [Cap.endUse 2]) ∧
    Cap.endUse 0 ∉ (handle_command_error false (Session.mk true [])).2 ∧
    handle_command_error true (Session.mk true []) = (Session.mk false [], []) := by
  refine ⟨rfl, rfl, ?_, rfl⟩
  decide

/-- C2: one bounce refinement performs exactly 3 contact-detect cycles (a
constant of `_bouncing_probe`; the configured sample count is not consulted),
the k-th contact-detect move runs at speed `v * 0.1^(k-1)`, the returned
position is the contact of the third cycle, and it is exactly the position
carried by the emitted `probe:update_results` event. -/
theorem bounce_three_cycles (direction : String) (axis : Nat) (sense : Int)
    (v : ℚ) (contacts : Nat → Pos) (probe_start : Pos)
    (h : direction_types direction = some (axis, sense)) :
    ∃ tr, bouncing_probe contacts probe_start v direction = some (contacts 2, tr) ∧
      probe_moves tr =
        [(v * (1/10)^0, contacts 0), (v * (1/10)^1, contacts 1), (v * (1/10)^2, contacts 2)] ∧
      event_positions tr = [contacts 2] := by
  refine ⟨[BAct.probeMove v (contacts 0),
           BAct.moveTo (probe_start.set axis
             ((contacts 0).get axis - (sense : ℚ) * (v * (1/10) * 3))) (v * 2),
           BAct.probeMove (v * (1/10)) (contacts 1),
           BAct.moveTo (probe_start.set axis
             ((contacts 1).get axis - (sense : ℚ) * (v * (1/10) * (1/10) * 3))) (v * 2),
           BAct.probeMove (v * (1/10) * (1/10)) (contacts 2),
           BAct.moveTo (probe_start.set axis
             ((contacts 2).get axis - (sense : ℚ) * (v * (1/10) * (1/10) * (1/10) * 3))) (v * 2),
           BAct.updateEvent (contacts 2)], ?_, ?_, ?_⟩
  · simp only [bouncing_probe, h]
    rfl
  · simp only [probe_moves, List.filterMap]
    norm_num
    ring
  · simp only [event_positions, List.filterMap]

theorem bounce_three_cycles_witness :
    direction_types "z-" = some (2, -1) ∧
    (∃ tr, bouncing_probe (fun n => Pos.mk n 0 n) (Pos.mk 0 0 10) 5 "z-" =
        some ((fun n => Pos.mk (n : ℚ) 0 (n : ℚ)) 2, tr) ∧
      probe_moves tr =
        [((5 : ℚ) * (1/10)^0, (fun n => Pos.mk (n : ℚ) 0 (n : ℚ)) 0),
         ((5 : ℚ) * (1/10)^1, (fun n => Pos.mk (n : ℚ) 0 (n : ℚ)) 1),
         ((5 : ℚ) * (1/10)^2, (fun n => Pos.mk (n : ℚ) 0 (n : ℚ)) 2)] ∧
      event_positions tr = [(fun n => Pos.mk (n : ℚ) 0 (n : ℚ)) 2]) :=
  ⟨by decide,
   bounce_three_cycles "z-" 2 (-1) 5 (fun n => Pos.mk n 0 n) (Pos.mk 0 0 10) (by decide)⟩

/-- C3 (counterexample): the claim that each bounce cycle retracts by
`v * 3.0` at lift speed `v * 2.0`, with `v` that cycle's approach speed and
the decay happening only after the retract, is false on the code.  With
direction `"z-"`, initial speed 5, probe start `(0,0,10)` and every contact
at `(0,0,1)`: the first retract target is `z = 5/2`, i.e. a retract distance
of `3/2 = (5 * 0.1) * 3` (the speed decayed *before* the retract-distance
computation), not `5 * 3 = 15`; and the second cycle's retract runs at lift
speed 10 (the *initial* speed times 2), not `(5 * 0.1) * 2`. -/
theorem bounce_retract_claim_counterexample :
    (∃ p tr, bouncing_probe (fun _ => Pos.mk 0 0 1) (Pos.mk 0 0 10) 5 "z-" = some (p, tr) ∧
       retract_moves tr =
         [(Pos.mk 0 0 (5/2), 10), (Pos.mk 0 0 (23/20), 10), (Pos.mk 0 0 (203/200), 10)]) ∧
    ((5/2 : ℚ) - 1 = 5 * (1/10) * 3) ∧
    ((5/2 : ℚ) - 1 ≠ 5 * 3) ∧
    ((10 : ℚ) ≠ 5 * (1/10) * 2) := by
  refine ⟨⟨Pos.mk 0 0 1, _, rfl, ?_⟩, by norm_num, by norm_num, by norm_num⟩
  simp only [retract_moves, bounce_loop, List.filterMap, Pos.set, Pos.get]
  norm_num

/-- C3 (amended): within each bounce cycle with approach speed `v_k`, the
speed first decays by the factor `0.1` and the retract then moves away from
the contact by `(v_k * 0.1) * 3.0` — i.e. `v * 0.1^k * 3.0` in terms of the
initial speed `v` — at the loop-constant lift speed `v * 2.0` computed from
the initial speed before the first cycle. -/
theorem bounce_retract_after_decay (direction : String) (axis : Nat) (sense : Int)
    (v : ℚ) (contacts : Nat → Pos) (probe_start : Pos)
    (h : direction_types direction = some (axis, sense)) :
    ∃ tr, bouncing_probe contacts probe_start v direction = some (contacts 2, tr) ∧
      retract_moves tr =
        [(probe_start.set axis ((contacts 0).get axis - (sense : ℚ) * (v * (1/10)^1 * 3)), v * 2),
         (probe_start.set axis ((contacts 1).get axis - (sense : ℚ) * (v * (1/10)^2 * 3)), v * 2),
         (probe_start.set axis ((contacts 2).get axis - (sense : ℚ) * (v * (1/10)^3 * 3)), v * 2)] := by
  refine ⟨[BAct.probeMove v (contacts 0),
           BAct.moveTo (probe_start.set axis
             ((contacts 0).get axis - (sense : ℚ) * (v * (1/10) * 3))) (v * 2),
           BAct.probeMove (v * (1/10)) (contacts 1),
           BAct.moveTo (probe_start.set axis
             ((contacts 1).get axis - (sense : ℚ) * (v * (1/10) * (1/10) * 3))) (v * 2),
           BAct.probeMove (v * (1/10) * (1/10)) (contacts 2),
           BAct.moveTo (probe_start.set axis
             ((contacts 2).get axis - (sense : ℚ) * (v * (1/10) * (1/10) * (1/10) * 3))) (v * 2),
           BAct.updateEvent (contacts 2)], ?_, ?_⟩
  · simp only [bouncing_probe, h]
    rfl
  · simp only [retract_moves, List.filterMap]
    norm_num
    ring_nf
    exact ⟨trivial, trivial⟩

theorem bounce_retract_after_decay_witness :
    direction_types "x-" = some (0, -1) ∧
    (∃ tr, bouncing_probe (fun n => Pos.mk (n : ℚ) 1 2) (Pos.mk 9 1 2) 5 "x-" =
        some ((fun n => Pos.mk (n : ℚ) 1 2) 2, tr) ∧
      retract_moves tr =
        [((Pos.mk 9 1 2).set 0 (((fun n => Pos.mk (n : ℚ) 1 2) 0).get 0 -
            ((-1 : Int) : ℚ) * (5 * (1/10)^1 * 3)), 5 * 2),
         ((Pos.mk 9 1 2).set 0 (((fun n => Pos.mk (n : ℚ) 1 2) 1).get 0 -
            ((-1 : Int) : ℚ) * (5 * (1/10)^2 * 3)), 5 * 2),
         ((Pos.mk 9 1 2).set 0 (((fun n => Pos.mk (n : ℚ) 1 2) 2).get 0 -
            ((-1 : Int) : ℚ) * (5 * (1/10)^3 * 3)), 5 * 2)]) :=
  ⟨by decide,
   bounce_retract_after_decay "x-" 0 (-1) 5 (fun n => Pos.mk (n : ℚ) 1 2) (Pos.mk 9 1 2) (by decide)⟩

/-! ## Stability and characterisation of the axis sort -/

theorem orderedInsert_filter_key (axis : Nat) (p : Pos) (k : ℚ) :
    ∀ l : List Pos,
      (List.orderedInsert (fun a b => a.get axis ≤ b.get axis) p l).filter
          (fun q => decide (q.get axis = k)) =
        if p.get axis = k then p :: l.filter (fun q => decide (q.get axis = k))
        else l.filter (fun q => decide (q.get axis = k))
  | [] => by
      simp only [List.orderedInsert, List.filter_cons, List.filter_nil]
      by_cases hp : p.get axis = k <;> simp [hp]
  | q :: l => by
      rw [List.orderedInsert]
      by_cases hle : p.get axis ≤ q.get axis
      · rw [if_pos hle, List.filter_cons, List.filter_cons]
        by_cases hp : p.get axis = k <;> simp [hp]
      · rw [if_neg hle, List.filter_cons, List.filter_cons,
            orderedInsert_filter_key axis p k l]
        have hqk : q.get axis = k → ¬ p.get axis = k := by
          intro hq hp
          exact hle (le_of_eq (hp.trans hq.symm))
        by_cases hp : p.get axis = k
        · have hq : ¬ q.get axis = k := fun hq => hqk hq hp
          simp [hp, hq]
        · simp [hp]

theorem sortByAxis_filter_key (axis : Nat) (k : ℚ) :
    ∀ l : List Pos,
      (sortByAxis axis l).filter (fun q => decide (q.get axis = k)) =
        l.filter (fun q => decide (q.get axis = k))
  | [] => rfl
  | p :: l => by
      rw [sortByAxis, List.insertionSort]
      rw [orderedInsert_filter_key]
      rw [List.filter_cons]
      have ih := sortByAxis_filter_key axis k l
      rw [sortByAxis] at ih
      by_cases hp : p.get axis = k <;> simp [hp, ih]

theorem sortByAxis_sorted (axis : Nat) (l : List Pos) :
    (sortByAxis axis l).Pairwise (fun p q => p.get axis ≤ q.get axis) := by
  have : IsTotal Pos (fun p q => p.get axis ≤ q.get axis) := ⟨fun a b => le_total _ _⟩
  have : IsTrans Pos (fun p q => p.get axis ≤ q.get axis) := ⟨fun a b c => le_trans⟩
  exact List.sorted_insertionSort _ l

theorem sortByAxis_length (axis : Nat) (l : List Pos) :
    (sortByAxis axis l).length = l.length :=
  List.length_insertionSort _ l

theorem drop_take_two (L : List Pos) (i : Nat) (h : i + 1 < L.length) :
    (L.drop i).take 2 = [L.getD i default, L.getD (i + 1) default] := by
  have h0 : i < L.length := Nat.lt_of_succ_lt h
  rw [List.drop_eq_getElem_cons h0, List.take_succ_cons]
  rw [List.drop_eq_getElem_cons h, List.take_succ_cons]
  rw [List.take_zero]
  rw [List.getD_eq_getElem L default h0, List.getD_eq_getElem L default h]

/-- C6: for every non-empty sample list and axis, `_calc_median` sorts by the
given axis coordinate with a stable sort — the output is ordered by the axis
key, and for every key value the sub-list of samples carrying that key is
exactly the one of the input, in original insertion order — and returns the
middle element verbatim for an odd count, and the per-coordinate mean of the
two middle elements for an even count. -/
theorem calc_median_stable_middle (l : List Pos) (axis : Nat) (hne : l ≠ []) :
    (sortByAxis axis l).Pairwise (fun p q => p.get axis ≤ q.get axis) ∧
    (∀ k : ℚ, (sortByAxis axis l).filter (fun q => decide (q.get axis = k)) =
        l.filter (fun q => decide (q.get axis = k))) ∧
    (sortByAxis axis l).length = l.length ∧
    (l.length % 2 = 1 →
      calc_median l axis = (sortByAxis axis l).getD (l.length / 2) default) ∧
    (l.length % 2 = 0 →
      calc_median l axis =
        calc_mean [(sortByAxis axis l).getD (l.length / 2 - 1) default,
                   (sortByAxis axis l).getD (l.length / 2) default]) := by
  refine ⟨sortByAxis_sorted axis l, fun k => sortByAxis_filter_key axis k l,
    sortByAxis_length axis l, fun hodd => ?_, fun heven => ?_⟩
  · simp only [calc_median]
    rw [if_pos hodd]
  · have hlen0 : l.length ≠ 0 := fun h0 => hne (List.length_eq_zero.mp h0)
    have hlen2 : 2 ≤ l.length := by omega
    have hlt : (l.length / 2 - 1) + 1 < (sortByAxis axis l).length := by
      rw [sortByAxis_length]
      omega
    have hidx : l.length / 2 - 1 + 1 = l.length / 2 := by omega
    simp only [calc_median]
    rw [if_neg (by omega : ¬ l.length % 2 = 1)]
    rw [drop_take_two _ _ hlt, hidx]

theorem calc_median_stable_middle_witness :
    ([Pos.mk 1 0 5, Pos.mk 2 0 1] ≠ []) ∧
    ((sortByAxis 0 [Pos.mk 1 0 5, Pos.mk 2 0 1]).Pairwise
        (fun p q => p.get 0 ≤ q.get 0) ∧
     (∀ k : ℚ, (sortByAxis 0 [Pos.mk 1 0 5, Pos.mk 2 0 1]).filter
          (fun q => decide (q.get 0 = k)) =
        [Pos.mk 1 0 5, Pos.mk 2 0 1].filter (fun q => decide (q.get 0 = k))) ∧
     (sortByAxis 0 [Pos.mk 1 0 5, Pos.mk 2 0 1]).length =
        ([Pos.mk 1 0 5, Pos.mk 2 0 1] : List Pos).length ∧
     (([Pos.mk 1 0 5, Pos.mk 2 0 1] : List Pos).length % 2 = 1 →
       calc_median [Pos.mk 1 0 5, Pos.mk 2 0 1] 0 =
         (sortByAxis 0 [Pos.mk 1 0 5, Pos.mk 2 0 1]).getD
           (([Pos.mk 1 0 5, Pos.mk 2 0 1] : List Pos).length / 2) default) ∧
     (([Pos.mk 1 0 5, Pos.mk 2 0 1] : List Pos).length % 2 = 0 →
       calc_median [Pos.mk 1 0 5, Pos.mk 2 0 1] 0 =
         calc_mean [(sortByAxis 0 [Pos.mk 1 0 5, Pos.mk 2 0 1]).getD
             (([Pos.mk 1 0 5, Pos.mk 2 0 1] : List Pos).length / 2 - 1) default,
           (sortByAxis 0 [Pos.mk 1 0 5, Pos.mk 2 0 1]).getD
             (([Pos.mk 1 0 5, Pos.mk 2 0 1] : List Pos).length / 2) default])) :=
  ⟨List.cons_ne_nil _ _,
   calc_median_stable_middle [Pos.mk 1 0 5, Pos.mk 2 0 1] 0 (List.cons_ne_nil _ _)⟩

/-- C7 (code evaluated at the failing input): for the configured axis 0 and
results `(1,0,5), (2,0,1), (3,0,2), (4,0,3)`, the accuracy diagnostic's
maximum, minimum, range and mean are taken over axis 0 (4, 1, 3, 5/2) — but
its median is 7/2 and its variance 9/4, both computed from the hardcoded
third coordinate (`z_sorted` by `p[2]`, `positions[i][2]`), whereas the
median by sorting on axis 0 is 5/2 and the variance of the axis-0
coordinates is 5/4.  This contradicts the claim that the median sort and the
squared deviations use the configured axis. -/
theorem accuracy_stats_hardcoded_third_coordinate :
    accuracy_stats [Pos.mk 1 0 5, Pos.mk 2 0 1, Pos.mk 3 0 2, Pos.mk 4 0 3] 0 =
      AccuracyStats.mk 4 1 3 (5/2) (7/2) (9/4) ∧
    (calc_median [Pos.mk 1 0 5, Pos.mk 2 0 1, Pos.mk 3 0 2, Pos.mk 4 0 3] 0).get 0 = 5/2 ∧
    (([Pos.mk 1 0 5, Pos.mk 2 0 1, Pos.mk 3 0 2, Pos.mk 4 0 3].map
        (fun p => (p.get 0 - 5/2) ^ 2)).sum / 4 = 5/4) ∧
    ((7/2 : ℚ) ≠ 5/2) ∧ ((9/4 : ℚ) ≠ 5/4) := by
  have hmean : calc_probe_average [Pos.mk 1 0 5, Pos.mk 2 0 1, Pos.mk 3 0 2, Pos.mk 4 0 3]
      "average" = Pos.mk (5/2) 0 (11/4) := by
    rw [calc_probe_average, if_pos (show ("average" : String) ≠ "median" by decide)]
    norm_num [calc_mean, Pos.mk.injEq]
  have hmed : calc_probe_average [Pos.mk 1 0 5, Pos.mk 2 0 1, Pos.mk 3 0 2, Pos.mk 4 0 3]
      "median" = Pos.mk (7/2) 0 (5/2) := by
    rw [calc_probe_average, if_neg (show ¬ ("median" : String) ≠ "median" by decide)]
    norm_num [sortByAxis, List.insertionSort, List.orderedInsert, Pos.get, calc_mean,
      Pos.mk.injEq]
  refine ⟨?_, ?_, by norm_num [Pos.get], by norm_num, by norm_num⟩
  · simp only [accuracy_stats, hmean, hmed]
    norm_num [list_max, list_min, Pos.get, AccuracyStats.mk.injEq]
  · norm_num [calc_median, calc_mean, sortByAxis, List.insertionSort, List.orderedInsert,
      Pos.get]

/-! ## Substring containment (Python's `in` on strings) is sound -/

theorem list_starts_iff (p : List Char) :
    ∀ l, list_starts p l = true ↔ ∃ r, l = p ++ r := by
  induction p with
  | nil =>
      intro l
      simp [list_starts]
  | cons c p ih =>
      intro l
      cases l with
      | nil =>
          simp [list_starts]
      | cons d s =>
          simp only [list_starts, Bool.and_eq_true, decide_eq_true_eq, ih s,
            List.cons_append, List.cons.injEq]
          constructor
          · rintro ⟨hc, r, hr⟩
            exact ⟨r, hc.symm, hr⟩
          · rintro ⟨r, hc, hr⟩
            exact ⟨hc.symm, r, hr⟩

theorem list_has_run_iff (p : List Char) :
    ∀ l, list_has_run p l = true ↔ ∃ a b, l = a ++ p ++ b := by
  intro l
  induction l with
  | nil =>
      simp only [list_has_run, List.isEmpty_iff]
      constructor
      · intro hp
        exact ⟨[], [], by simp [hp]⟩
      · rintro ⟨a, b, hab⟩
        rcases List.append_eq_nil.mp (List.append_eq_nil.mp hab.symm).1 with ⟨-, hp⟩
        exact hp
  | cons c s ih =>
      simp only [list_has_run, Bool.or_eq_true, list_starts_iff, ih]
      constructor
      · rintro (⟨r, hr⟩ | ⟨a, b, hab⟩)
        · exact ⟨[], r, by simp [hr]⟩
        · exact ⟨c :: a, b, by simp [hab]⟩
      · rintro ⟨a, b, hab⟩
        cases a with
        | nil =>
            exact Or.inl ⟨b, by simpa using hab⟩
        | cons c' a' =>
            simp only [List.cons_append, List.cons.injEq] at hab
            exact Or.inr ⟨a', b, hab.2⟩

set_option maxRecDepth 8000 in
theorem hint_marker_found :
    str_in "Timeout during endstop homing" "Timeout during endstop homing" = true := by
  decide

/-- C9 (counterexample): a `NoContactTimeout` raised while probing direction
`"x+"` — a *horizontal* axis (axis 0) — still has the remediation hint
appended, contradicting the claim that a timeout on a horizontal axis is
propagated without the hint. -/
theorem timeout_hint_on_horizontal_axis :
    direction_types "x+" = some (0, 1) ∧
    probe_handle_error "x+" "Timeout during endstop homing" =
      "Timeout during endstop homing" ++ HINT_TIMEOUT ∧
    "Timeout during endstop homing" ++ HINT_TIMEOUT ≠ "Timeout during endstop homing" := by
  refine ⟨by decide, ?_, by decide⟩
  rw [probe_handle_error]
  rw [if_pos hint_marker_found]

set_option maxRecDepth 8000 in
/-- C9 (amended): the `_probe` error handler appends the remediation hint to
the propagated message exactly when the message contains
"Timeout during endstop homing" — on every probing axis, vertical or
horizontal alike; any other message is propagated unchanged. -/
theorem timeout_hint_iff_timeout_message (direction : String) (axis : Nat) (sense : Int)
    (reason : String) (h : direction_types direction = some (axis, sense)) :
    (probe_handle_error direction reason = reason ++ HINT_TIMEOUT ∨
      probe_handle_error direction reason = reason) ∧
    (probe_handle_error direction reason = reason ++ HINT_TIMEOUT ↔
      ∃ a b, reason.toList =
        a ++ String.toList "Timeout during endstop homing" ++ b) := by
  have hne : reason ≠ reason ++ HINT_TIMEOUT := by
    intro heq
    have hl := congrArg String.length heq
    rw [String.length_append] at hl
    have hh : HINT_TIMEOUT.length ≠ 0 := by decide
    omega
  by_cases hc : str_in "Timeout during endstop homing" reason
  · have hpe : probe_handle_error direction reason = reason ++ HINT_TIMEOUT := by
      rw [probe_handle_error, if_pos hc]
    have hex : ∃ a b, reason.toList =
        a ++ String.toList "Timeout during endstop homing" ++ b := by
      have := (list_has_run_iff (String.toList "Timeout during endstop homing")
        reason.toList).mp hc
      simpa [List.append_assoc] using this
    exact ⟨Or.inl hpe, ⟨fun _ => hex, fun _ => hpe⟩⟩
  · have hpe : probe_handle_error direction reason = reason := by
      rw [probe_handle_error, if_neg hc]
    refine ⟨Or.inr hpe, ⟨fun heq => absurd (hpe.symm.trans heq) hne, fun hex => ?_⟩⟩
    exfalso
    apply hc
    apply (list_has_run_iff (String.toList "Timeout during endstop homing")
      reason.toList).mpr
    simpa [List.append_assoc] using hex

theorem timeout_hint_iff_timeout_message_witness :
    direction_types "y+" = some (1, 1) ∧
    ((probe_handle_error "y+" "probe failed" = "probe failed" ++ HINT_TIMEOUT ∨
      probe_handle_error "y+" "probe failed" = "probe failed") ∧
    (probe_handle_error "y+" "probe failed" = "probe failed" ++ HINT_TIMEOUT ↔
      ∃ a b, String.toList "probe failed" =
        a ++ String.toList "Timeout during endstop homing" ++ b)) :=
  ⟨by decide, timeout_hint_iff_timeout_message "y+" 1 1 "probe failed" (by decide)⟩

end MultiAxisProbe
